import Mathlib

/-!
# Verification of the gossip UTXO-checking core (`src/lightning/src/routing/utxo.rs`)

This development is a shallow embedding of the pending-UTXO-check machinery of the
`rust-lightning-rgb` repository: the data model (`UtxoMessages`, the pending-checks
registry), the registration path (`PendingChecks::check_channel_announcement` and
`PendingChecks::check_replace_previous_entry`), and the resolution path
(`UtxoFuture::resolve`, `PendingChecksContext::lookup_completed`).

Shared state (`Arc<Mutex<UtxoMessages>>` interiors, the registry `HashMap`) is modelled
by explicit state passing: handle interiors live in an association-list store indexed by
a numeric handle identifier, `Weak` references are the identifiers themselves, and
`Weak::upgrade` succeeds exactly when the identifier is in the `live` set.  Each
lock-protected critical section of the source becomes one atomic state transformation.
-/

/-- Association-list lookup, keyed by `Nat` (models `HashMap` lookup / `Entry`). -/
def lookupA {α : Type} : List (Nat × α) → Nat → Option α
  | [], _ => none
  | (k, v) :: t, k' => if k' = k then some v else lookupA t k'

/-- Association-list removal (models `Entry::remove` / `HashMap::remove`). -/
def eraseA {α : Type} (l : List (Nat × α)) (k : Nat) : List (Nat × α) :=
  l.filter (fun p => p.1 ≠ k)

/-- Association-list insert-or-overwrite (models `HashMap` insertion / `*e.get_mut() = v`). -/
def insertA {α : Type} (l : List (Nat × α)) (k : Nat) (v : α) : List (Nat × α) :=
  (k, v) :: eraseA l k

theorem lookupA_eraseA {α : Type} (l : List (Nat × α)) (k k' : Nat) :
    lookupA (eraseA l k) k' = if k' = k then none else lookupA l k' := by
  induction l with
  | nil => by_cases h : k' = k <;> simp [lookupA, eraseA, h]
  | cons p t ih =>
    obtain ⟨k0, v0⟩ := p
    by_cases h0 : k0 = k
    · subst h0
      have hstep : eraseA ((k0, v0) :: t) k0 = eraseA t k0 := by
        simp [eraseA, List.filter]
      rw [hstep, ih]
      by_cases h1 : k' = k0 <;> simp [lookupA, h1]
    · have hstep : eraseA ((k0, v0) :: t) k = (k0, v0) :: eraseA t k := by
        simp [eraseA, List.filter, h0]
      rw [hstep]
      by_cases h1 : k' = k0
      · subst h1
        have hk : ¬ k' = k := fun hc => h0 hc
        simp [lookupA, hk]
      · simp [lookupA, h1, ih]

theorem lookupA_insertA {α : Type} (l : List (Nat × α)) (k k' : Nat) (v : α) :
    lookupA (insertA l k v) k' = if k' = k then some v else lookupA l k' := by
  by_cases h : k' = k
  · simp [insertA, lookupA, h]
  · simp [insertA, lookupA, h, lookupA_eraseA]

theorem eraseA_of_lookupA_none {α : Type} (l : List (Nat × α)) (k : Nat)
    (h : lookupA l k = none) : eraseA l k = l := by
  induction l with
  | nil => rfl
  | cons p t ih =>
    obtain ⟨k0, v0⟩ := p
    simp [lookupA] at h
    by_cases h0 : k = k0
    · simp [h0] at h
    · simp [lookupA, h0] at h
      simp [eraseA, List.filter, Ne.symm h0] at ih ⊢
      exact ih h

/-! ## Data model (`utxo.rs` lines 31-84, and the message types from `ln/msgs.rs`) -/

/-- `UtxoLookupError` (utxo.rs lines 33-39). -/
inductive UtxoLookupError
  | UnknownChain
  | UnknownTx
deriving DecidableEq

/-- `bitcoin::TxOut`: a transaction output, value in satoshis plus locking script
(a byte list). -/
structure TxOut where
  value : Nat
  script_pubkey : List Nat
deriving DecidableEq

/-- `msgs::UnsignedChannelAnnouncement`: the core reads `chain_hash`,
`short_channel_id`, `bitcoin_key_1` and `bitcoin_key_2`; the remaining fields
(features, node ids, excess data) are carried opaquely so that logical equality of
announcements is structural equality of all fields, as `#[derive(PartialEq)]` gives
the source type. -/
structure UnsignedChannelAnnouncement where
  chain_hash : List Nat
  short_channel_id : Nat
  node_id_1 : Nat
  node_id_2 : Nat
  bitcoin_key_1 : List Nat
  bitcoin_key_2 : List Nat
  excess_data : List Nat
deriving DecidableEq

/-- `msgs::ChannelAnnouncement`: the signed ("full") representation, four signatures
plus the unsigned contents; derived equality compares all fields. -/
structure FullChannelAnnouncement where
  node_signature_1 : Nat
  node_signature_2 : Nat
  bitcoin_signature_1 : Nat
  bitcoin_signature_2 : Nat
  contents : UnsignedChannelAnnouncement
deriving DecidableEq

/-- `enum ChannelAnnouncement` (utxo.rs lines 68-71): the stashed announcement, in
either representation. -/
inductive ChannelAnnouncement
  | Full (signed_msg : FullChannelAnnouncement)
  | Unsigned (msg : UnsignedChannelAnnouncement)
deriving DecidableEq

/-- `util::logger::Level`, restricted to the variant this module uses. -/
inductive Level
  | Gossip
deriving DecidableEq

/-- `msgs::ErrorAction`, restricted to the variants this module produces. -/
inductive ErrorAction
  | IgnoreError
  | IgnoreDuplicateGossip
  | IgnoreAndLog (level : Level)
deriving DecidableEq

/-- `msgs::LightningError`. -/
structure LightningError where
  err : String
  action : ErrorAction
deriving DecidableEq

instance {ε α : Type} [DecidableEq ε] [DecidableEq α] : DecidableEq (Except ε α) := fun a b =>
  match a, b with
  | .ok a, .ok b =>
    if h : a = b then .isTrue (by rw [h]) else .isFalse (fun hc => h (Except.ok.inj hc))
  | .error a, .error b =>
    if h : a = b then .isTrue (by rw [h]) else .isFalse (fun hc => h (Except.error.inj hc))
  | .ok _, .error _ => .isFalse (fun hc => Except.noConfusion hc)
  | .error _, .ok _ => .isFalse (fun hc => Except.noConfusion hc)

/-- `struct UtxoMessages` (utxo.rs lines 73-76): the lock-protected interior of a
`UtxoFuture`. -/
structure UtxoMessages where
  complete : Option (Except UtxoLookupError TxOut)
  channel_announce : Option ChannelAnnouncement
deriving DecidableEq

/-- The whole shared state: the store of handle interiors (`Arc<Mutex<UtxoMessages>>`
allocations, keyed by handle identifier), the set of identifiers whose strong count is
still positive (`Weak::upgrade` succeeds exactly on these), and the
`PendingChecksContext::channels` table mapping `short_channel_id` to the weak handle
reference (utxo.rs lines 144-146). -/
structure GlobalState where
  store : List (Nat × UtxoMessages)
  live : List Nat
  channels : List (Nat × Nat)
deriving DecidableEq

/-- Dereference a handle identifier to its interior; total via a default that a
reachable state never needs (the store covers every registered live handle). -/
def getMsgs (st : GlobalState) (fid : Nat) : UtxoMessages :=
  (lookupA st.store fid).getD ⟨none, none⟩

/-! ## Hex rendering used by the error strings (`ToHex` / `Writeable::encode`) -/

def hexDigitChar (n : Nat) : Char :=
  if n < 10 then Char.ofNat (48 + n) else Char.ofNat (87 + n)

def hexOfByte (b : Nat) : String :=
  String.mk [hexDigitChar (b / 16 % 16), hexDigitChar (b % 16)]

def hexOfBytes (bs : List Nat) : String :=
  String.join (bs.map hexOfByte)

/-! ## Expected funding script -/

/-- Modelled from the spec: `make_funding_redeemscript_from_slices` lives in
`ln/chan_utils.rs`, which is not under `src/`; the spec describes it as building the
2-of-2 multisignature redeem script from the two announced bitcoin keys
("derive the expected funding-output locking script deterministically from the two
announced public keys (2-of-2 multisignature script, witness-hashed)").  Encoded as
`OP_PUSHNUM_2 <push key1> <push key2> OP_PUSHNUM_2 OP_CHECKMULTISIG`. -/
def make_funding_redeemscript_from_slices (bitcoin_key_1 bitcoin_key_2 : List Nat) :
    List Nat :=
  82 :: 33 :: bitcoin_key_1 ++ 33 :: bitcoin_key_2 ++ [82, 174]

/-- Modelled from the spec: the witness hash inside `Script::to_v0_p2wsh`
(rust-bitcoin, not under `src/`).  A deterministic executable stand-in for SHA-256:
the claims depend only on the derivation being a deterministic function of the
script bytes, never on the hash's cryptographic properties. -/
def witnessHash (bs : List Nat) : List Nat :=
  [bs.foldl (fun a b => (a * 131 + b + 1) % 256) 7, bs.length % 256]

/-- Modelled from the spec: `Script::to_v0_p2wsh` (rust-bitcoin, not under `src/`)
wraps the witness hash of the redeem script into a version-0
pay-to-witness-script-hash output script (`OP_0 OP_PUSHBYTES_32 <hash>`). -/
def to_v0_p2wsh (script : List Nat) : List Nat :=
  0 :: 32 :: witnessHash script

/-- The expected locking script for an announcement, exactly as computed at
utxo.rs lines 234-235. -/
def expected_script (msg : UnsignedChannelAnnouncement) : List Nat :=
  to_v0_p2wsh (make_funding_redeemscript_from_slices
    msg.bitcoin_key_1 msg.bitcoin_key_2)

/-! ## The synchronous validation closure -/

/-- The `handle_result` closure of `PendingChecks::check_channel_announcement`
(utxo.rs lines 231-259): validate a concrete chain outcome for `msg`. -/
def handle_result (msg : UnsignedChannelAnnouncement)
    (res : Except UtxoLookupError TxOut) : Except LightningError (Option Nat) :=
  match res with
  | .ok out =>
    if out.script_pubkey ≠ expected_script msg then
      .error { err := "Channel announcement key (" ++ hexOfBytes (expected_script msg)
                 ++ ") didn't match on-chain script (" ++ hexOfBytes out.script_pubkey ++ ")",
               action := .IgnoreError }
    else
      .ok (some out.value)
  | .error .UnknownChain =>
    .error { err := "Channel announced on an unknown chain ("
               ++ hexOfBytes msg.chain_hash ++ ")",
             action := .IgnoreError }
  | .error .UnknownTx =>
    .error { err := "Channel announced without corresponding UTXO entry",
             action := .IgnoreError }

/-! ## The pending-checks registry -/

/-- The comparison of utxo.rs lines 183-194 (the two non-degenerate arms): does the
stashed pending announcement equal the incoming one?  A pending `Full` message is
compared (including signatures) against the optional incoming full message; a pending
`Unsigned` message is compared against the incoming unsigned contents. -/
def pending_matches (pending : ChannelAnnouncement)
    (msg : UnsignedChannelAnnouncement)
    (full_msg : Option FullChannelAnnouncement) : Bool :=
  match pending with
  | .Full pending_msg => decide (some pending_msg = full_msg)
  | .Unsigned pending_msg => decide (pending_msg = msg)

/-- The error built at utxo.rs lines 196-199. -/
def dup_checked_error : LightningError :=
  { err := "Channel announcement is already being checked",
    action := .IgnoreDuplicateGossip }

/-- Outcome of one `check_replace_previous_entry` critical section: the returned
`Result`, the state after the section, and whether the `debug_assert!(false)` branch
of utxo.rs line 191 was reached. -/
structure ReplaceOutcome where
  result : Except LightningError Unit
  st : GlobalState
  assertFired : Bool
deriving DecidableEq

/-- `PendingChecks::check_replace_previous_entry` (utxo.rs lines 172-225), run with
the registry lock held.  `Weak::upgrade` success is membership of the entry in
`st.live`; the `None` arm of the upgrade removes or replaces the stale entry. -/
def check_replace_previous_entry (msg : UnsignedChannelAnnouncement)
    (full_msg : Option FullChannelAnnouncement) (replacement : Option Nat)
    (st : GlobalState) : ReplaceOutcome :=
  match lookupA st.channels msg.short_channel_id with
  | some entry =>
    if entry ∈ st.live then
      match (getMsgs st entry).channel_announce with
      | some pending =>
        if pending_matches pending msg full_msg then
          { result := .error dup_checked_error, st := st, assertFired := false }
        else
          match replacement with
          | some item =>
            { result := .ok (),
              st := { st with channels := insertA st.channels msg.short_channel_id item },
              assertFired := false }
          | none => { result := .ok (), st := st, assertFired := false }
      | none =>
        -- utxo.rs lines 186-193: treat as non-matching, `debug_assert!(false)`
        match replacement with
        | some item =>
          { result := .ok (),
            st := { st with channels := insertA st.channels msg.short_channel_id item },
            assertFired := true }
        | none => { result := .ok (), st := st, assertFired := true }
    else
      match replacement with
      | some item =>
        { result := .ok (),
          st := { st with channels := insertA st.channels msg.short_channel_id item },
          assertFired := false }
      | none =>
        { result := .ok (),
          st := { st with channels := eraseA st.channels msg.short_channel_id },
          assertFired := false }
  | none =>
    match replacement with
    | some item =>
      { result := .ok (),
        st := { st with channels := insertA st.channels msg.short_channel_id item },
        assertFired := false }
    | none => { result := .ok (), st := st, assertFired := false }

/-- The error built at utxo.rs lines 285-288. -/
def async_pending_error : LightningError :=
  { err := "Channel being checked async",
    action := .IgnoreAndLog .Gossip }

/-- Outcome of the deferred-registration critical section. -/
structure CommitOutcome where
  result : Except LightningError (Option Nat)
  st : GlobalState
  assertFired : Bool
deriving DecidableEq

/-- The `UtxoResult::Async` arm of `check_channel_announcement`
(utxo.rs lines 272-289): one critical section holding the registry lock and then
the future's interior lock.  If the future already completed, take the result and
validate inline; otherwise register the future in the table and stash the
announcement (full when available, unsigned otherwise). -/
def check_async_commit (msg : UnsignedChannelAnnouncement)
    (full_msg : Option FullChannelAnnouncement) (future : Nat)
    (st : GlobalState) : CommitOutcome :=
  let msgs := getMsgs st future
  match msgs.complete with
  | some res =>
    { result := handle_result msg res,
      st := { st with store := insertA st.store future { msgs with complete := none } },
      assertFired := false }
  | none =>
    let r := check_replace_previous_entry msg full_msg (some future) st
    match r.result with
    | .error e => { result := .error e, st := r.st, assertFired := r.assertFired }
    | .ok _ =>
      let stash : ChannelAnnouncement :=
        match full_msg with
        | some m => .Full m
        | none => .Unsigned msg
      let msgs1 := getMsgs r.st future
      { result := .error async_pending_error,
        st := { r.st with
                store := insertA r.st.store future
                  { msgs1 with channel_announce := some stash } },
        assertFired := r.assertFired }

/-- A `UtxoLookup::get_utxo` answer (utxo.rs lines 44-56): synchronous result, or a
deferred handle identified by its interior's identifier. -/
inductive UtxoResult
  | Sync (res : Except UtxoLookupError TxOut)
  | Async (future : Nat)

/-- Outcome of a whole `check_channel_announcement` call: the returned `Result`, the
state afterwards, whether `get_utxo` was invoked, and whether any
`debug_assert!(false)` branch was reached. -/
structure CheckOutcome where
  result : Except LightningError (Option Nat)
  st : GlobalState
  queried : Bool
  assertFired : Bool

/-- `PendingChecks::check_channel_announcement` (utxo.rs lines 227-294): the up-front
duplicate/staleness check with no replacement, then the optional oracle query, then
either inline validation (`Sync`) or the deferred-registration section (`Async`).
The oracle is a function from `(chain_hash, short_channel_id)`, as
`UtxoLookup::get_utxo`. -/
def check_channel_announcement
    (utxo_lookup : Option (List Nat → Nat → UtxoResult))
    (msg : UnsignedChannelAnnouncement)
    (full_msg : Option FullChannelAnnouncement)
    (st : GlobalState) : CheckOutcome :=
  let pre := check_replace_previous_entry msg full_msg none st
  match pre.result with
  | .error e =>
    { result := .error e, st := pre.st, queried := false, assertFired := pre.assertFired }
  | .ok _ =>
    match utxo_lookup with
    | none =>
      -- utxo.rs lines 265-268: tentatively accept
      { result := .ok none, st := pre.st, queried := false, assertFired := pre.assertFired }
    | some lookup =>
      match lookup msg.chain_hash msg.short_channel_id with
      | .Sync res =>
        { result := handle_result msg res, st := pre.st, queried := true,
          assertFired := pre.assertFired }
      | .Async future =>
        let c := check_async_commit msg full_msg future pre.st
        { result := c.result, st := c.st, queried := true,
          assertFired := pre.assertFired || c.assertFired }

/-! ## The resolution path -/

/-- The unsigned contents of a stashed announcement (utxo.rs lines 118-121). -/
def annContents : ChannelAnnouncement → UnsignedChannelAnnouncement
  | .Full signed_msg => signed_msg.contents
  | .Unsigned msg => msg

/-- The registered slot a stashed announcement belongs to. -/
def annScid (ann : ChannelAnnouncement) : Nat :=
  (annContents ann).short_channel_id

/-- `PendingChecksContext::lookup_completed` (utxo.rs lines 149-157): drop the table
entry for the announcement's `short_channel_id` only if it still points at this
handle's interior (`Weak::ptr_eq`). -/
def lookup_completed (msg : UnsignedChannelAnnouncement) (completed_state : Nat)
    (channels : List (Nat × Nat)) : List (Nat × Nat) :=
  match lookupA channels msg.short_channel_id with
  | some e =>
    if e = completed_state then eraseA channels msg.short_channel_id else channels
  | none => channels

/-- Outcome of `UtxoFuture::resolve`: the state after its critical section, and the
announcement (if any) handed to the topology collaborator afterwards. -/
structure ResolveOutcome where
  st : GlobalState
  delivered : Option ChannelAnnouncement
deriving DecidableEq

/-- `UtxoFuture::resolve` (utxo.rs lines 105-141): under the registry lock and then
this handle's interior lock, either stash the completed result (when no announcement
was registered yet) or unregister and take the announcement; the taken announcement
is then passed back through the network graph outside both locks, which
`delivered` records. -/
def resolve (future : Nat) (result : Except UtxoLookupError TxOut)
    (st : GlobalState) : ResolveOutcome :=
  let msgs := getMsgs st future
  match msgs.channel_announce with
  | none =>
    { st := { st with store := insertA st.store future { msgs with complete := some result } },
      delivered := none }
  | some ann =>
    { st := { st with
              channels := lookup_completed (annContents ann) future st.channels,
              store := insertA st.store future { msgs with channel_announce := none } },
      delivered := some ann }

/-- Modelled from the spec: `NetworkGraph::update_channel_from_announcement` /
`update_channel_from_unsigned_announcement` (routing/gossip.rs, not under `src/`).
Per the spec, the resolution path re-invokes the topology collaborator's
announcement-processing entry point "passing a trivial synchronous lookup
implementation that simply returns `outcome`" (the `UtxoResolver` of utxo.rs
lines 88-93), "caus[ing] the announcement to flow through the normal
validation/application path exactly once". -/
def update_channel_from_announcement_model (ann : ChannelAnnouncement)
    (result : Except UtxoLookupError TxOut) (st : GlobalState) : CheckOutcome :=
  match ann with
  | .Full signed_msg =>
    check_channel_announcement (some fun _ _ => .Sync result)
      signed_msg.contents (some signed_msg) st
  | .Unsigned msg =>
    check_channel_announcement (some fun _ _ => .Sync result) msg none st

/-! ## Basic lemmas about the registry primitive -/

theorem check_replace_store_live (msg : UnsignedChannelAnnouncement)
    (full_msg : Option FullChannelAnnouncement) (replacement : Option Nat)
    (st : GlobalState) :
    (check_replace_previous_entry msg full_msg replacement st).st.store = st.store ∧
    (check_replace_previous_entry msg full_msg replacement st).st.live = st.live := by
  unfold check_replace_previous_entry
  split <;> [skip; (split <;> simp)]
  split
  · split
    · split
      · simp
      · split <;> simp
    · split <;> simp
  · split <;> simp

theorem check_replace_error (msg : UnsignedChannelAnnouncement)
    (full_msg : Option FullChannelAnnouncement) (replacement : Option Nat)
    (st : GlobalState) (e : LightningError)
    (h : (check_replace_previous_entry msg full_msg replacement st).result = .error e) :
    (check_replace_previous_entry msg full_msg replacement st).st = st ∧
    e = dup_checked_error := by
  unfold check_replace_previous_entry at h ⊢
  split at h <;> [skip; (split at h <;> simp_all)]
  split at h
  · split at h
    · split at h
      · simp_all
      · split at h <;> simp_all
    · split at h <;> simp_all
  · split at h <;> simp_all

theorem check_replace_none_channels (msg : UnsignedChannelAnnouncement)
    (full_msg : Option FullChannelAnnouncement) (st : GlobalState) :
    (check_replace_previous_entry msg full_msg none st).st.channels = st.channels ∨
    (check_replace_previous_entry msg full_msg none st).st.channels =
      eraseA st.channels msg.short_channel_id := by
  unfold check_replace_previous_entry
  split
  · split
    · split
      · split
        · exact Or.inl rfl
        · exact Or.inl rfl
      · exact Or.inl rfl
    · exact Or.inr rfl
  · exact Or.inl rfl

theorem check_replace_some_ok_channels (msg : UnsignedChannelAnnouncement)
    (full_msg : Option FullChannelAnnouncement) (item : Nat) (st : GlobalState)
    (u : Unit)
    (h : (check_replace_previous_entry msg full_msg (some item) st).result = .ok u) :
    (check_replace_previous_entry msg full_msg (some item) st).st.channels =
      insertA st.channels msg.short_channel_id item := by
  unfold check_replace_previous_entry at h ⊢
  split
  · rename_i entry hl
    split
    · rename_i hlive
      split
      · rename_i pending ha
        split
        · rename_i hm
          rw [hl] at h
          simp only [hlive, if_true, ha, hm, if_pos] at h
          simp at h
        · rfl
      · rfl
    · rfl
  · rfl

theorem check_replace_vacant (msg : UnsignedChannelAnnouncement)
    (full_msg : Option FullChannelAnnouncement) (replacement : Option Nat)
    (st : GlobalState) (h : lookupA st.channels msg.short_channel_id = none) :
    check_replace_previous_entry msg full_msg replacement st =
      { result := .ok (),
        st := { st with channels :=
          match replacement with
          | some item => insertA st.channels msg.short_channel_id item
          | none => st.channels },
        assertFired := false } := by
  unfold check_replace_previous_entry
  rw [h]
  cases replacement <;> rfl

theorem check_replace_duplicate (msg : UnsignedChannelAnnouncement)
    (full_msg : Option FullChannelAnnouncement) (replacement : Option Nat)
    (st : GlobalState) (entry : Nat) (pending : ChannelAnnouncement)
    (h1 : lookupA st.channels msg.short_channel_id = some entry)
    (h2 : entry ∈ st.live)
    (h3 : (getMsgs st entry).channel_announce = some pending)
    (h4 : pending_matches pending msg full_msg = true) :
    check_replace_previous_entry msg full_msg replacement st =
      { result := .error dup_checked_error, st := st, assertFired := false } := by
  unfold check_replace_previous_entry
  rw [h1]
  simp [h2, h3, h4]

/-! ## Helper lemmas about validation and resolution -/

theorem handle_result_ok (msg : UnsignedChannelAnnouncement)
    (res : Except UtxoLookupError TxOut) (v : Option Nat)
    (h : handle_result msg res = .ok v) : ∃ value, v = some value := by
  cases res with
  | ok out =>
    by_cases hs : out.script_pubkey = expected_script msg
    · simp [handle_result, hs] at h
      exact ⟨out.value, h.symm⟩
    · simp [handle_result, hs] at h
  | error e => cases e <;> simp [handle_result] at h

theorem check_async_commit_ok (msg : UnsignedChannelAnnouncement)
    (full_msg : Option FullChannelAnnouncement) (future : Nat) (st : GlobalState)
    (v : Option Nat)
    (h : (check_async_commit msg full_msg future st).result = .ok v) :
    ∃ value, v = some value := by
  simp only [check_async_commit] at h
  split at h
  · exact handle_result_ok _ _ _ h
  · split at h
    · simp at h
    · simp [async_pending_error] at h

theorem resolve_eq_unstashed (future : Nat) (result : Except UtxoLookupError TxOut)
    (st : GlobalState) (h : (getMsgs st future).channel_announce = none) :
    resolve future result st =
      { st := { st with
                store := insertA st.store future ⟨some result, none⟩ },
        delivered := none } := by
  simp only [resolve]
  rw [h]

theorem resolve_eq_stashed (future : Nat) (result : Except UtxoLookupError TxOut)
    (st : GlobalState) (ann : ChannelAnnouncement)
    (h : (getMsgs st future).channel_announce = some ann) :
    resolve future result st =
      { st := { st with
                channels := lookup_completed (annContents ann) future st.channels,
                store := insertA st.store future ⟨(getMsgs st future).complete, none⟩ },
        delivered := some ann } := by
  simp only [resolve]
  rw [h]

theorem check_async_commit_fresh (msg : UnsignedChannelAnnouncement)
    (full_msg : Option FullChannelAnnouncement) (future : Nat) (st : GlobalState)
    (hstore : lookupA st.store future = some ⟨none, none⟩)
    (hchan : lookupA st.channels msg.short_channel_id = none) :
    check_async_commit msg full_msg future st =
      { result := .error async_pending_error,
        st := { st with
                channels := insertA st.channels msg.short_channel_id future,
                store := insertA st.store future
                  ⟨none, some (match full_msg with
                    | some m => .Full m
                    | none => .Unsigned msg)⟩ },
        assertFired := false } := by
  have hv := check_replace_vacant msg full_msg (some future) st hchan
  simp only [check_async_commit, getMsgs, hstore, Option.getD_some, hv]

/-! ## Claim theorems: pure validation -/

/-- **C2.** When the chain lookup returns an immediate transaction output, the
validation of `check_channel_announcement` accepts with `Ok(Some(value))` carrying
exactly the output's value if and only if the output's locking script byte-for-byte
equals the v0-P2WSH of the 2-of-2 multisignature redeem script derived from the
announcement's two bitcoin keys; any output whose script differs yields the
script-mismatch rejection with `ErrorAction::IgnoreError`. -/
theorem script_validation_accept_iff (msg : UnsignedChannelAnnouncement) (out : TxOut) :
    (out.script_pubkey = expected_script msg →
      handle_result msg (.ok out) = .ok (some out.value)) ∧
    (out.script_pubkey ≠ expected_script msg →
      handle_result msg (.ok out) =
        .error { err := "Channel announcement key ("
                   ++ hexOfBytes (expected_script msg)
                   ++ ") didn't match on-chain script ("
                   ++ hexOfBytes out.script_pubkey ++ ")",
                 action := .IgnoreError }) := by
  constructor <;> intro h <;> simp [handle_result, h]

def sampleMsg : UnsignedChannelAnnouncement := ⟨[5], 17, 1, 2, [3], [4], [6]⟩

theorem script_validation_accept_iff_witness :
    ((⟨1000, expected_script sampleMsg⟩ : TxOut).script_pubkey = expected_script sampleMsg ∧
      handle_result sampleMsg (.ok ⟨1000, expected_script sampleMsg⟩) = .ok (some 1000)) ∧
    ((⟨1000, [9]⟩ : TxOut).script_pubkey ≠ expected_script sampleMsg ∧
      handle_result sampleMsg (.ok ⟨1000, [9]⟩) =
        .error { err := "Channel announcement key ("
                   ++ hexOfBytes (expected_script sampleMsg)
                   ++ ") didn't match on-chain script ("
                   ++ hexOfBytes [9] ++ ")",
                 action := .IgnoreError }) :=
  ⟨⟨by decide, (script_validation_accept_iff sampleMsg ⟨1000, expected_script sampleMsg⟩).1 (by decide)⟩,
   ⟨by decide, (script_validation_accept_iff sampleMsg ⟨1000, [9]⟩).2 (by decide)⟩⟩

/-- **C6.** A synchronous `UnknownChain` lookup error yields a rejection whose
message names the announcement's chain hash, and `UnknownTx` yields a rejection
citing absence of a corresponding UTXO entry; both carry the non-fatal
`ErrorAction::IgnoreError`, and neither is an acceptance, regardless of the rest of
the announcement. -/
theorem chain_outcome_mapping (msg : UnsignedChannelAnnouncement) :
    handle_result msg (.error .UnknownChain) =
      .error { err := "Channel announced on an unknown chain ("
                 ++ hexOfBytes msg.chain_hash ++ ")",
               action := .IgnoreError } ∧
    (∃ before after, handle_result msg (.error .UnknownChain) =
        .error { err := before ++ hexOfBytes msg.chain_hash ++ after,
                 action := .IgnoreError }) ∧
    handle_result msg (.error .UnknownTx) =
      .error { err := "Channel announced without corresponding UTXO entry",
               action := .IgnoreError } :=
  ⟨rfl, ⟨"Channel announced on an unknown chain (", ")", rfl⟩, rfl⟩

/-! ## Claim theorems: duplicate detection (C1) -/

/-- **C1 (amended).** While an announcement is pending in the registry with a live
handle, a second submission for the same channel identifier returns the
`DuplicateInFlight` rejection (`ErrorAction::IgnoreDuplicateGossip`) before
`get_utxo` is ever invoked and without touching the state, precisely when the
code's comparison matches: a pending unsigned announcement is compared by content
against the incoming unsigned contents, while a pending full announcement is
compared (signatures included) only against an incoming full message — so a
pending full announcement is never treated as a duplicate of an incoming unsigned
submission. -/
theorem duplicate_in_flight_when_code_matches
    (utxo_lookup : Option (List Nat → Nat → UtxoResult))
    (msg : UnsignedChannelAnnouncement) (full_msg : Option FullChannelAnnouncement)
    (st : GlobalState) (entry : Nat) (pending : ChannelAnnouncement)
    (h1 : lookupA st.channels msg.short_channel_id = some entry)
    (h2 : entry ∈ st.live)
    (h3 : (getMsgs st entry).channel_announce = some pending)
    (h4 : pending_matches pending msg full_msg = true) :
    (check_channel_announcement utxo_lookup msg full_msg st).result =
        .error dup_checked_error ∧
    (check_channel_announcement utxo_lookup msg full_msg st).queried = false ∧
    (check_channel_announcement utxo_lookup msg full_msg st).st = st := by
  have hd := check_replace_duplicate msg full_msg none st entry pending h1 h2 h3 h4
  simp only [check_channel_announcement, hd]
  exact ⟨trivial, trivial, trivial⟩

def c1_msg : UnsignedChannelAnnouncement := ⟨[7], 99, 1, 2, [3], [4], []⟩

def c1_full : FullChannelAnnouncement := ⟨11, 12, 13, 14, c1_msg⟩

def c1_pending_state : GlobalState :=
  (check_channel_announcement (some fun _ _ => .Async 0) c1_msg (some c1_full)
    ⟨[(0, ⟨none, none⟩)], [0], []⟩).st

/-- **C1 (counterexample).** A full (signed) announcement is pending in the registry
with a live handle; submitting the logically-identical unsigned announcement for the
same channel identifier is *not* rejected as `DuplicateInFlight` and the oracle *is*
queried a second time: the comparison does not treat the two representations as
equal by logical content in this direction. -/
theorem duplicate_in_flight_counterexample :
    lookupA c1_pending_state.channels c1_msg.short_channel_id = some 0 ∧
    0 ∈ c1_pending_state.live ∧
    (getMsgs c1_pending_state 0).channel_announce = some (.Full c1_full) ∧
    annContents (.Full c1_full) = c1_msg ∧
    (check_channel_announcement (some fun _ _ => .Sync (.error .UnknownTx))
        c1_msg none c1_pending_state).queried = true ∧
    (check_channel_announcement (some fun _ _ => .Sync (.error .UnknownTx))
        c1_msg none c1_pending_state).result ≠ .error dup_checked_error := by
  decide

def c1_unsigned_state : GlobalState :=
  ⟨[(0, ⟨none, some (.Unsigned c1_msg)⟩)], [0], [(99, 0)]⟩

theorem duplicate_in_flight_when_code_matches_witness :
    (lookupA c1_unsigned_state.channels c1_msg.short_channel_id = some 0 ∧
     0 ∈ c1_unsigned_state.live ∧
     (getMsgs c1_unsigned_state 0).channel_announce = some (.Unsigned c1_msg) ∧
     pending_matches (.Unsigned c1_msg) c1_msg none = true) ∧
    ((check_channel_announcement (some fun _ _ => .Sync (.error .UnknownTx))
        c1_msg none c1_unsigned_state).result = .error dup_checked_error ∧
     (check_channel_announcement (some fun _ _ => .Sync (.error .UnknownTx))
        c1_msg none c1_unsigned_state).queried = false ∧
     (check_channel_announcement (some fun _ _ => .Sync (.error .UnknownTx))
        c1_msg none c1_unsigned_state).st = c1_unsigned_state) :=
  ⟨⟨by decide, by decide, by decide, by decide⟩,
   duplicate_in_flight_when_code_matches (some fun _ _ => .Sync (.error .UnknownTx))
     c1_msg none c1_unsigned_state 0 (.Unsigned c1_msg)
     (by decide) (by decide) (by decide) (by decide)⟩

/-! ## Claim theorems: resolve with no stashed announcement (C3) -/

/-- **C3.** `UtxoFuture::resolve` on a handle whose interior `channel_announce` is
`None` stores the given result into the interior's `complete` field and returns:
the registry table is untouched, no entry is removed, the live set is unchanged,
every other handle's interior is unchanged, and nothing is delivered to the
topology collaborator. -/
theorem resolve_unstashed_frame (future : Nat) (result : Except UtxoLookupError TxOut)
    (st : GlobalState) (i : Nat)
    (h : (getMsgs st future).channel_announce = none)
    (hi : i ≠ future) :
    (resolve future result st).delivered = none ∧
    (resolve future result st).st.channels = st.channels ∧
    (resolve future result st).st.live = st.live ∧
    (getMsgs (resolve future result st).st future).complete = some result ∧
    (getMsgs (resolve future result st).st future).channel_announce = none ∧
    lookupA (resolve future result st).st.store i = lookupA st.store i := by
  rw [resolve_eq_unstashed future result st h]
  refine ⟨rfl, rfl, rfl, ?_, ?_, ?_⟩
  · simp [getMsgs, lookupA_insertA]
  · simp [getMsgs, lookupA_insertA]
  · simp [lookupA_insertA, hi]

def c3_state : GlobalState :=
  ⟨[(0, ⟨none, none⟩), (1, ⟨none, some (.Unsigned c1_msg)⟩)], [0, 1], [(99, 1)]⟩

theorem resolve_unstashed_frame_witness :
    ((getMsgs c3_state 0).channel_announce = none ∧ (1 : Nat) ≠ 0) ∧
    ((resolve 0 (.error .UnknownTx) c3_state).delivered = none ∧
     (resolve 0 (.error .UnknownTx) c3_state).st.channels = c3_state.channels ∧
     (resolve 0 (.error .UnknownTx) c3_state).st.live = c3_state.live ∧
     (getMsgs (resolve 0 (.error .UnknownTx) c3_state).st 0).complete =
        some (.error .UnknownTx) ∧
     (getMsgs (resolve 0 (.error .UnknownTx) c3_state).st 0).channel_announce = none ∧
     lookupA (resolve 0 (.error .UnknownTx) c3_state).st.store 1 =
        lookupA c3_state.store 1) :=
  ⟨⟨by decide, by decide⟩,
   resolve_unstashed_frame 0 (.error .UnknownTx) c3_state 1 (by decide) (by decide)⟩

/-! ## Claim theorems: resolve with a stashed announcement (C5) -/

/-- **C5.** `UtxoFuture::resolve` with a stashed announcement removes the registry
entry for that announcement's channel identifier exactly when the entry still
points at this handle's interior (`Weak::ptr_eq`); if a later request has replaced
the entry with a different handle, the table is left untouched — and in either
case the superseded handle's own stashed announcement is still delivered to the
topology collaborator. -/
theorem resolve_stashed_removes_iff_ptr_eq (future : Nat)
    (result : Except UtxoLookupError TxOut) (st : GlobalState)
    (ann : ChannelAnnouncement) (other : Nat)
    (h : (getMsgs st future).channel_announce = some ann) :
    (resolve future result st).delivered = some ann ∧
    (resolve future result st).st.channels =
      lookup_completed (annContents ann) future st.channels ∧
    (lookupA st.channels (annScid ann) = some future →
      lookupA (resolve future result st).st.channels (annScid ann) = none) ∧
    (lookupA st.channels (annScid ann) = some other → other ≠ future →
      (resolve future result st).st.channels = st.channels) := by
  rw [resolve_eq_stashed future result st ann h]
  refine ⟨rfl, rfl, ?_, ?_⟩
  · intro hl
    simp only [lookup_completed, annScid] at hl ⊢
    rw [hl]
    simp [lookupA_eraseA]
  · intro hl hne
    simp only [lookup_completed, annScid] at hl ⊢
    rw [hl]
    simp [hne]

def c5_msg : UnsignedChannelAnnouncement := ⟨[7], 5, 1, 2, [3], [4], []⟩

def c5_state_mine : GlobalState :=
  ⟨[(0, ⟨none, some (.Unsigned c5_msg)⟩)], [0], [(5, 0)]⟩

def c5_state_replaced : GlobalState :=
  ⟨[(0, ⟨none, some (.Unsigned c5_msg)⟩), (1, ⟨none, none⟩)], [0, 1], [(5, 1)]⟩

theorem resolve_stashed_removes_iff_ptr_eq_witness :
    ((getMsgs c5_state_mine 0).channel_announce = some (.Unsigned c5_msg) ∧
     lookupA c5_state_mine.channels (annScid (.Unsigned c5_msg)) = some 0) ∧
    ((resolve 0 (.error .UnknownTx) c5_state_mine).delivered =
        some (.Unsigned c5_msg) ∧
     lookupA (resolve 0 (.error .UnknownTx) c5_state_mine).st.channels
        (annScid (.Unsigned c5_msg)) = none) ∧
    ((getMsgs c5_state_replaced 0).channel_announce = some (.Unsigned c5_msg) ∧
     lookupA c5_state_replaced.channels (annScid (.Unsigned c5_msg)) = some 1) ∧
    ((resolve 0 (.error .UnknownTx) c5_state_replaced).delivered =
        some (.Unsigned c5_msg) ∧
     (resolve 0 (.error .UnknownTx) c5_state_replaced).st.channels =
        c5_state_replaced.channels) :=
  ⟨⟨by decide, by decide⟩,
   ⟨(resolve_stashed_removes_iff_ptr_eq 0 (.error .UnknownTx) c5_state_mine
       (.Unsigned c5_msg) 0 (by decide)).1,
    (resolve_stashed_removes_iff_ptr_eq 0 (.error .UnknownTx) c5_state_mine
       (.Unsigned c5_msg) 0 (by decide)).2.2.1 (by decide)⟩,
   ⟨by decide, by decide⟩,
   ⟨(resolve_stashed_removes_iff_ptr_eq 0 (.error .UnknownTx) c5_state_replaced
       (.Unsigned c5_msg) 1 (by decide)).1,
    (resolve_stashed_removes_iff_ptr_eq 0 (.error .UnknownTx) c5_state_replaced
       (.Unsigned c5_msg) 1 (by decide)).2.2.2 (by decide) (by decide)⟩⟩

/-! ## Claim theorems: no-oracle fallback (C7) -/

/-- **C7 (amended).** With no `UtxoLookup` configured, `check_channel_announcement`
returns `Ok(None)` (acceptance with no confirmed value) whenever the up-front
duplicate check passes; the oracle-independent duplicate rejection still runs
first, so acceptance is not unconditional. -/
theorem no_lookup_tentative_accept (msg : UnsignedChannelAnnouncement)
    (full_msg : Option FullChannelAnnouncement) (st : GlobalState)
    (h : (check_replace_previous_entry msg full_msg none st).result = .ok ()) :
    (check_channel_announcement none msg full_msg st).result = .ok none ∧
    (check_channel_announcement none msg full_msg st).queried = false := by
  simp only [check_channel_announcement]
  rw [h]
  exact ⟨rfl, rfl⟩

def c7_msg : UnsignedChannelAnnouncement := ⟨[8], 23, 1, 2, [3], [4], []⟩

def c7_pending_state : GlobalState :=
  (check_channel_announcement (some fun _ _ => .Async 0) c7_msg none
    ⟨[(0, ⟨none, none⟩)], [0], []⟩).st

/-- **C7 (counterexample).** With no `UtxoLookup` configured, a well-formed
announcement is *not* accepted unconditionally: if a logically-matching
announcement is already pending with a live handle, the call returns the
duplicate rejection instead of `Ok(None)`. -/
theorem no_lookup_unconditional_counterexample :
    (getMsgs c7_pending_state 0).channel_announce = some (.Unsigned c7_msg) ∧
    0 ∈ c7_pending_state.live ∧
    (check_channel_announcement none c7_msg none c7_pending_state).result =
        .error dup_checked_error ∧
    (check_channel_announcement none c7_msg none c7_pending_state).result ≠
        .ok none := by
  decide

theorem no_lookup_tentative_accept_witness :
    ((check_replace_previous_entry c7_msg none none ⟨[], [], []⟩).result = .ok ()) ∧
    ((check_channel_announcement none c7_msg none ⟨[], [], []⟩).result = .ok none ∧
     (check_channel_announcement none c7_msg none ⟨[], [], []⟩).queried = false) :=
  ⟨by decide, no_lookup_tentative_accept c7_msg none ⟨[], [], []⟩ (by decide)⟩

/-! ## Claim theorems: accepted-with-no-amount implies no oracle (C10) -/

/-- **C10.** With a lookup interface supplied, every non-error return of
`check_channel_announcement` is `Ok(Some(value))`: `Ok(None)` can only arise on
the no-oracle trust-on-first-use path, so acceptance with no amount implies no
`UtxoLookup` was configured. -/
theorem with_lookup_accept_carries_value (lookup : List Nat → Nat → UtxoResult)
    (msg : UnsignedChannelAnnouncement) (full_msg : Option FullChannelAnnouncement)
    (st : GlobalState) (v : Option Nat)
    (h : (check_channel_announcement (some lookup) msg full_msg st).result = .ok v) :
    ∃ value, v = some value := by
  simp only [check_channel_announcement] at h
  split at h
  · simp at h
  · split at h
    · exact handle_result_ok _ _ _ h
    · exact check_async_commit_ok _ _ _ _ _ h

def c10_msg : UnsignedChannelAnnouncement := ⟨[2], 7, 1, 2, [1], [2], []⟩

theorem with_lookup_accept_carries_value_witness :
    (check_channel_announcement
        (some fun _ _ => .Sync (.ok ⟨1000, expected_script c10_msg⟩))
        c10_msg none ⟨[], [], []⟩).result = .ok (some 1000) ∧
    ∃ value, (some 1000 : Option Nat) = some value :=
  ⟨by decide,
   with_lookup_accept_carries_value
     (fun _ _ => .Sync (.ok ⟨1000, expected_script c10_msg⟩))
     c10_msg none ⟨[], [], []⟩ (some 1000) (by decide)⟩

/-! ## Helper lemmas for the async race (C4) -/

theorem check_sync_eq (res : Except UtxoLookupError TxOut)
    (msg : UnsignedChannelAnnouncement) (full_msg : Option FullChannelAnnouncement)
    (st : GlobalState)
    (hchan : lookupA st.channels msg.short_channel_id = none) :
    check_channel_announcement (some fun _ _ => .Sync res) msg full_msg st =
      { result := handle_result msg res, st := st, queried := true,
        assertFired := false } := by
  have hv := check_replace_vacant msg full_msg none st hchan
  simp only [check_channel_announcement, hv]

theorem check_async_eq (msg : UnsignedChannelAnnouncement)
    (full_msg : Option FullChannelAnnouncement) (fut : Nat) (st : GlobalState)
    (hchan : lookupA st.channels msg.short_channel_id = none) :
    check_channel_announcement (some fun _ _ => .Async fut) msg full_msg st =
      { result := (check_async_commit msg full_msg fut st).result,
        st := (check_async_commit msg full_msg fut st).st,
        queried := true,
        assertFired := (check_async_commit msg full_msg fut st).assertFired } := by
  have hv := check_replace_vacant msg full_msg none st hchan
  simp only [check_channel_announcement, hv]
  rfl

theorem check_async_commit_completed (msg : UnsignedChannelAnnouncement)
    (full_msg : Option FullChannelAnnouncement) (fut : Nat) (st : GlobalState)
    (res : Except UtxoLookupError TxOut)
    (hg : lookupA st.store fut = some ⟨some res, none⟩) :
    check_async_commit msg full_msg fut st =
      { result := handle_result msg res,
        st := { st with store := insertA st.store fut ⟨none, none⟩ },
        assertFired := false } := by
  simp only [check_async_commit, getMsgs, hg, Option.getD_some]

/-! ## Claim theorems: the registration/resolution race (C4) -/

/-- **C4.** For a freshly created future with no duplicate pending for the channel:
if resolution lands first (`complete` already holds an outcome), the deferred branch
of `check_channel_announcement` validates inline, returning exactly the synchronous
result `handle_result msg res`, without registering the handle or stashing the
announcement; in the opposite order the check defers (`IgnoreAndLog(Gossip)`) and
the single validation happens at resolve time, where the re-entry through the
topology collaborator produces the same `handle_result msg res` — so the race
order changes neither the number of validations nor the accept/reject outcome. -/
theorem async_race_symmetry (msg : UnsignedChannelAnnouncement)
    (full_msg : Option FullChannelAnnouncement) (st : GlobalState) (fut : Nat)
    (res : Except UtxoLookupError TxOut)
    (hstore : lookupA st.store fut = some ⟨none, none⟩)
    (hchan : lookupA st.channels msg.short_channel_id = none)
    (hfull : ∀ f, full_msg = some f → f.contents = msg) :
    ((check_channel_announcement (some fun _ _ => .Async fut) msg full_msg
        (resolve fut res st).st).result = handle_result msg res ∧
     (check_channel_announcement (some fun _ _ => .Async fut) msg full_msg
        (resolve fut res st).st).st.channels = st.channels ∧
     (getMsgs (check_channel_announcement (some fun _ _ => .Async fut) msg full_msg
        (resolve fut res st).st).st fut).channel_announce = none) ∧
    ((check_channel_announcement (some fun _ _ => .Async fut) msg full_msg st).result
        = .error async_pending_error ∧
     (resolve fut res
        (check_channel_announcement (some fun _ _ => .Async fut) msg full_msg st).st
       ).delivered =
        some (match full_msg with
              | some m => ChannelAnnouncement.Full m
              | none => ChannelAnnouncement.Unsigned msg) ∧
     (update_channel_from_announcement_model
        (match full_msg with
         | some m => ChannelAnnouncement.Full m
         | none => ChannelAnnouncement.Unsigned msg)
        res
        (resolve fut res
          (check_channel_announcement (some fun _ _ => .Async fut) msg full_msg st).st
         ).st).result = handle_result msg res) := by
  have hgm : (getMsgs st fut).channel_announce = none := by simp [getMsgs, hstore]
  have hresolveA := resolve_eq_unstashed fut res st hgm
  have hg1 : lookupA (insertA st.store fut (⟨some res, none⟩ : UtxoMessages)) fut
      = some ⟨some res, none⟩ := by simp [lookupA_insertA]
  cases full_msg with
  | none =>
    have hcommitA := check_async_commit_completed msg none fut
        { st with store := insertA st.store fut ⟨some res, none⟩ } res hg1
    have hcheckA := check_async_eq msg none fut
        { st with store := insertA st.store fut ⟨some res, none⟩ } hchan
    rw [hcommitA] at hcheckA
    have hcommitB := check_async_commit_fresh msg none fut st hstore hchan
    have hcheckB := check_async_eq msg none fut st hchan
    rw [hcommitB] at hcheckB
    have hgm2 : (getMsgs { st with
        channels := insertA st.channels msg.short_channel_id fut,
        store := insertA st.store fut
          (⟨none, some (.Unsigned msg)⟩ : UtxoMessages) } fut).channel_announce
        = some (.Unsigned msg) := by simp [getMsgs, lookupA_insertA]
    have hresolveB := resolve_eq_stashed fut res _ _ hgm2
    have hchan3 : lookupA (lookup_completed (annContents (.Unsigned msg)) fut
        (insertA st.channels msg.short_channel_id fut)) msg.short_channel_id
        = none := by
      simp [lookup_completed, annContents, lookupA_insertA, lookupA_eraseA]
    refine ⟨⟨?_, ?_, ?_⟩, ?_, ?_, ?_⟩
    · simp only [hresolveA, hcheckA]
    · simp only [hresolveA, hcheckA]
    · simp only [hresolveA, hcheckA]
      simp [getMsgs, lookupA_insertA]
    · simp only [hcheckB]
    · simp only [hcheckB]
      rw [hresolveB]
    · simp only [hcheckB]
      rw [hresolveB]
      simp only [update_channel_from_announcement_model]
      rw [check_sync_eq res msg none _ hchan3]
  | some f =>
    have hc : f.contents = msg := hfull f rfl
    have hcommitA := check_async_commit_completed msg (some f) fut
        { st with store := insertA st.store fut ⟨some res, none⟩ } res hg1
    have hcheckA := check_async_eq msg (some f) fut
        { st with store := insertA st.store fut ⟨some res, none⟩ } hchan
    rw [hcommitA] at hcheckA
    have hcommitB := check_async_commit_fresh msg (some f) fut st hstore hchan
    have hcheckB := check_async_eq msg (some f) fut st hchan
    rw [hcommitB] at hcheckB
    have hgm2 : (getMsgs { st with
        channels := insertA st.channels msg.short_channel_id fut,
        store := insertA st.store fut
          (⟨none, some (.Full f)⟩ : UtxoMessages) } fut).channel_announce
        = some (.Full f) := by simp [getMsgs, lookupA_insertA]
    have hresolveB := resolve_eq_stashed fut res _ _ hgm2
    have hchan3 : lookupA (lookup_completed (annContents (.Full f)) fut
        (insertA st.channels msg.short_channel_id fut)) msg.short_channel_id
        = none := by
      simp [lookup_completed, annContents, hc, lookupA_insertA, lookupA_eraseA]
    refine ⟨⟨?_, ?_, ?_⟩, ?_, ?_, ?_⟩
    · simp only [hresolveA, hcheckA]
    · simp only [hresolveA, hcheckA]
    · simp only [hresolveA, hcheckA]
      simp [getMsgs, lookupA_insertA]
    · simp only [hcheckB]
    · simp only [hcheckB]
      rw [hresolveB]
    · simp only [hcheckB]
      rw [hresolveB]
      simp only [update_channel_from_announcement_model]
      rw [hc]
      rw [check_sync_eq res msg (some f) _ hchan3]

def c4_msg : UnsignedChannelAnnouncement := ⟨[3], 12, 1, 2, [5], [6], []⟩

def c4_state : GlobalState := ⟨[(3, ⟨none, none⟩)], [3], []⟩

theorem async_race_symmetry_witness :
    (lookupA c4_state.store 3 = some ⟨none, none⟩ ∧
     lookupA c4_state.channels c4_msg.short_channel_id = none) ∧
    ((check_channel_announcement (some fun _ _ => .Async 3) c4_msg none
        (resolve 3 (.error .UnknownTx) c4_state).st).result
        = handle_result c4_msg (.error .UnknownTx) ∧
     (check_channel_announcement (some fun _ _ => .Async 3) c4_msg none
        c4_state).result = .error async_pending_error ∧
     (update_channel_from_announcement_model (.Unsigned c4_msg) (.error .UnknownTx)
        (resolve 3 (.error .UnknownTx)
          (check_channel_announcement (some fun _ _ => .Async 3) c4_msg none
            c4_state).st).st).result
        = handle_result c4_msg (.error .UnknownTx)) :=
  ⟨⟨by decide, by decide⟩,
   (async_race_symmetry c4_msg none c4_state 3 (.error .UnknownTx) (by decide)
      (by decide) (fun f h => Option.noConfusion h)).1.1,
   (async_race_symmetry c4_msg none c4_state 3 (.error .UnknownTx) (by decide)
      (by decide) (fun f h => Option.noConfusion h)).2.1,
   (async_race_symmetry c4_msg none c4_state 3 (.error .UnknownTx) (by decide)
      (by decide) (fun f h => Option.noConfusion h)).2.2.2⟩

/-! ## State-effect lemmas for the reachability argument (C8) -/

theorem check_async_commit_state_cases (msg : UnsignedChannelAnnouncement)
    (full_msg : Option FullChannelAnnouncement) (fid : Nat) (st : GlobalState)
    (hann : (getMsgs st fid).channel_announce = none) :
    (check_async_commit msg full_msg fid st).st =
        ⟨insertA st.store fid ⟨none, none⟩, st.live, st.channels⟩ ∨
    (check_async_commit msg full_msg fid st).st = st ∨
    (check_async_commit msg full_msg fid st).st =
        ⟨insertA st.store fid
           ⟨none, some (match full_msg with
             | some m => ChannelAnnouncement.Full m
             | none => ChannelAnnouncement.Unsigned msg)⟩,
         st.live,
         insertA st.channels msg.short_channel_id fid⟩ := by
  cases hc : (getMsgs st fid).complete with
  | some res =>
    left
    have hgm : getMsgs st fid = ⟨some res, none⟩ := by
      have heta : getMsgs st fid
          = ⟨(getMsgs st fid).complete, (getMsgs st fid).channel_announce⟩ := rfl
      rw [heta, hc, hann]
    simp only [check_async_commit, hgm]
  | none =>
    have hgm : getMsgs st fid = ⟨none, none⟩ := by
      have heta : getMsgs st fid
          = ⟨(getMsgs st fid).complete, (getMsgs st fid).channel_announce⟩ := rfl
      rw [heta, hc, hann]
    cases hr : (check_replace_previous_entry msg full_msg (some fid) st).result with
    | error e =>
      right; left
      have he := check_replace_error msg full_msg (some fid) st e hr
      simp only [check_async_commit, hgm]
      rw [hr]
      exact he.1
    | ok u =>
      right; right
      obtain ⟨hs, hl⟩ := check_replace_store_live msg full_msg (some fid) st
      have hcs := check_replace_some_ok_channels msg full_msg fid st u hr
      have hrst : (check_replace_previous_entry msg full_msg (some fid) st).st =
          ⟨st.store, st.live, insertA st.channels msg.short_channel_id fid⟩ := by
        have heta : (check_replace_previous_entry msg full_msg (some fid) st).st =
            ⟨(check_replace_previous_entry msg full_msg (some fid) st).st.store,
             (check_replace_previous_entry msg full_msg (some fid) st).st.live,
             (check_replace_previous_entry msg full_msg (some fid) st).st.channels⟩ := rfl
        rw [heta, hs, hl, hcs]
      simp only [check_async_commit, hgm]
      rw [hr, hrst]
      have hgm2 : getMsgs
          (⟨st.store, st.live, insertA st.channels msg.short_channel_id fid⟩ :
            GlobalState) fid = ⟨none, none⟩ := hgm
      rw [hgm2]

theorem lookupA_lookup_completed (m : UnsignedChannelAnnouncement) (c : Nat)
    (ctx : List (Nat × Nat)) (s id : Nat)
    (h : lookupA (lookup_completed m c ctx) s = some id) :
    lookupA ctx s = some id ∧ (s = m.short_channel_id → id ≠ c) := by
  unfold lookup_completed at h
  cases hl : lookupA ctx m.short_channel_id with
  | none =>
    rw [hl] at h
    refine ⟨h, fun hs _ => ?_⟩
    rw [hs] at h
    rw [h] at hl
    exact Option.noConfusion hl
  | some e =>
    rw [hl] at h
    dsimp only at h
    by_cases he : e = c
    · rw [if_pos he, lookupA_eraseA] at h
      by_cases hs : s = m.short_channel_id
      · rw [if_pos hs] at h
        exact Option.noConfusion h
      · rw [if_neg hs] at h
        exact ⟨h, fun hc => absurd hc hs⟩
    · rw [if_neg he] at h
      refine ⟨h, fun hs hid => ?_⟩
      rw [hs] at h
      rw [h] at hl
      exact he ((Option.some.inj hl).symm.trans hid)

/-! ## Reachable states under the locking discipline (C8) -/

/-- States reachable under the source's locking discipline.  Each constructor is
one critical section of the source (or an allocation/drop of a handle):
`new_future` allocates a fresh `UtxoFuture` (`UtxoFuture::new`, utxo.rs
lines 97-102) with both interior fields absent and a pointer distinct from every
existing allocation; `drop_handle` drops the strong references to a handle;
`check_pre` is the up-front duplicate check of `check_channel_announcement`
(utxo.rs lines 261-262, registry lock only); `check_async` is the
deferred-registration critical section (utxo.rs lines 273-289, registry lock then
the future's interior lock) — its hypotheses record that the future handed back by
the oracle carries no stashed announcement and no registry slot points at it
(handles are registered at most once per the spec's handle invariant), and that a
supplied full message carries exactly the unsigned contents the caller passed;
`do_resolve` is the resolution critical section (utxo.rs lines 107-126). -/
inductive Reachable : GlobalState → Prop where
  | init : Reachable ⟨[], [], []⟩
  | new_future (st : GlobalState) (fid : Nat) : Reachable st →
      lookupA st.store fid = none → fid ∉ st.live →
      (∀ s, lookupA st.channels s ≠ some fid) →
      Reachable ⟨insertA st.store fid ⟨none, none⟩, fid :: st.live, st.channels⟩
  | drop_handle (st : GlobalState) (fid : Nat) : Reachable st →
      Reachable ⟨st.store, st.live.filter (fun x => x ≠ fid), st.channels⟩
  | check_pre (st : GlobalState) (msg : UnsignedChannelAnnouncement)
      (full_msg : Option FullChannelAnnouncement) : Reachable st →
      Reachable (check_replace_previous_entry msg full_msg none st).st
  | check_async (st : GlobalState) (msg : UnsignedChannelAnnouncement)
      (full_msg : Option FullChannelAnnouncement) (fid : Nat) : Reachable st →
      (getMsgs st fid).channel_announce = none →
      (∀ s, lookupA st.channels s ≠ some fid) →
      (∀ f, full_msg = some f → f.contents = msg) →
      Reachable (check_async_commit msg full_msg fid st).st
  | do_resolve (st : GlobalState) (fid : Nat)
      (res : Except UtxoLookupError TxOut) : Reachable st →
      Reachable (resolve fid res st).st

/-- The registry invariant: every registered entry whose weak reference is live
has a stashed announcement, and that announcement belongs to the slot it is
registered under. -/
def RegistryInv (st : GlobalState) : Prop :=
  ∀ s fid, lookupA st.channels s = some fid → fid ∈ st.live →
    ∃ ann, (getMsgs st fid).channel_announce = some ann ∧ annScid ann = s

theorem registry_inv_reachable (st : GlobalState) (h : Reachable st) :
    RegistryInv st := by
  induction h with
  | init =>
    intro s fid hs _
    exact Option.noConfusion hs
  | new_future st0 fid h0 hfresh hlive hchan ih =>
    intro s id hs hl
    have hne : id ≠ fid := fun he => (hchan s) (he ▸ hs)
    have hl0 : id ∈ st0.live := by
      rcases List.mem_cons.mp hl with h1 | h1
      · exact absurd h1 hne
      · exact h1
    obtain ⟨ann, ha, hscid⟩ := ih s id hs hl0
    refine ⟨ann, ?_, hscid⟩
    simpa [getMsgs, lookupA_insertA, hne] using ha
  | drop_handle st0 fid h0 ih =>
    intro s id hs hl
    exact ih s id hs (List.mem_of_mem_filter hl)
  | check_pre st0 msg full_msg h0 ih =>
    intro s id hs hl
    obtain ⟨hstore0, hlive0⟩ := check_replace_store_live msg full_msg none st0
    rw [hlive0] at hl
    have hget : getMsgs (check_replace_previous_entry msg full_msg none st0).st id
        = getMsgs st0 id := by
      simp [getMsgs, hstore0]
    rw [hget]
    rcases check_replace_none_channels msg full_msg st0 with hch | hch
    · rw [hch] at hs
      exact ih s id hs hl
    · rw [hch, lookupA_eraseA] at hs
      by_cases hseq : s = msg.short_channel_id
      · rw [if_pos hseq] at hs
        exact Option.noConfusion hs
      · rw [if_neg hseq] at hs
        exact ih s id hs hl
  | check_async st0 msg full_msg fid h0 hann hnotin hfull ih =>
    intro s id hs hl
    rcases check_async_commit_state_cases msg full_msg fid st0 hann with hst | hst | hst
    · rw [hst] at hs hl ⊢
      have hne : id ≠ fid := fun he => (hnotin s) (he ▸ hs)
      obtain ⟨ann, ha, hscid⟩ := ih s id hs hl
      refine ⟨ann, ?_, hscid⟩
      simpa [getMsgs, lookupA_insertA, hne] using ha
    · rw [hst] at hs hl ⊢
      exact ih s id hs hl
    · rw [hst] at hs hl ⊢
      simp only [lookupA_insertA] at hs
      by_cases hseq : s = msg.short_channel_id
      · rw [if_pos hseq] at hs
        have hid : id = fid := (Option.some.inj hs).symm
        subst hid
        cases full_msg with
        | none =>
          refine ⟨.Unsigned msg, ?_, ?_⟩
          · simp [getMsgs, lookupA_insertA]
          · simpa [annScid, annContents] using hseq.symm
        | some f =>
          have hc := hfull f rfl
          refine ⟨.Full f, ?_, ?_⟩
          · simp [getMsgs, lookupA_insertA]
          · simp only [annScid, annContents, hc]
            exact hseq.symm
      · rw [if_neg hseq] at hs
        have hne : id ≠ fid := fun he => (hnotin s) (he ▸ hs)
        obtain ⟨ann, ha, hscid⟩ := ih s id hs hl
        refine ⟨ann, ?_, hscid⟩
        simpa [getMsgs, lookupA_insertA, hne] using ha
  | do_resolve st0 fid res h0 ih =>
    intro s id hs hl
    cases hann : (getMsgs st0 fid).channel_announce with
    | none =>
      rw [resolve_eq_unstashed fid res st0 hann] at hs hl ⊢
      by_cases hne : id = fid
      · subst hne
        obtain ⟨ann, ha, _⟩ := ih s id hs hl
        rw [hann] at ha
        exact Option.noConfusion ha
      · obtain ⟨ann, ha, hscid⟩ := ih s id hs hl
        refine ⟨ann, ?_, hscid⟩
        simpa [getMsgs, lookupA_insertA, hne] using ha
    | some ann0 =>
      rw [resolve_eq_stashed fid res st0 ann0 hann] at hs hl ⊢
      dsimp only at hs hl ⊢
      obtain ⟨hs0, hnc⟩ := lookupA_lookup_completed (annContents ann0) fid
        st0.channels s id hs
      by_cases hne : id = fid
      · subst hne
        obtain ⟨ann, ha, hscid⟩ := ih s id hs0 hl
        rw [hann] at ha
        have hae : ann = ann0 := (Option.some.inj ha).symm
        subst hae
        exact absurd rfl (hnc (by rw [← hscid]; rfl))
      · obtain ⟨ann, ha, hscid⟩ := ih s id hs0 hl
        refine ⟨ann, ?_, hscid⟩
        simpa [getMsgs, lookupA_insertA, hne] using ha

/-- **C8.** In every state reachable under the stated locking discipline, the
duplicate-comparison branch that observes a live registered handle with no stashed
announcement is unreachable: the `debug_assert!(false)` of
`check_replace_previous_entry` never fires, for any arguments the callers can
pass. -/
theorem debug_assert_never_fires (st : GlobalState) (h : Reachable st)
    (msg : UnsignedChannelAnnouncement) (full_msg : Option FullChannelAnnouncement)
    (replacement : Option Nat) :
    (check_replace_previous_entry msg full_msg replacement st).assertFired = false := by
  have hinv := registry_inv_reachable st h
  unfold check_replace_previous_entry
  cases hl : lookupA st.channels msg.short_channel_id with
  | none => cases replacement <;> rfl
  | some entry =>
    dsimp only
    by_cases hlive : entry ∈ st.live
    · obtain ⟨ann, ha, _⟩ := hinv msg.short_channel_id entry hl hlive
      rw [if_pos hlive, ha]
      dsimp only
      cases hm : pending_matches ann msg full_msg
      · cases replacement <;> rfl
      · rfl
    · rw [if_neg hlive]
      cases replacement <;> rfl

def c8_msg : UnsignedChannelAnnouncement := ⟨[4], 55, 1, 2, [7], [8], []⟩

def c8_state1 : GlobalState := ⟨[(0, ⟨none, none⟩)], [0], []⟩

def c8_state2 : GlobalState := (check_async_commit c8_msg none 0 c8_state1).st

theorem debug_assert_never_fires_witness :
    (check_replace_previous_entry c8_msg none none c8_state2).assertFired = false :=
  debug_assert_never_fires c8_state2
    (Reachable.check_async c8_state1 c8_msg none 0
      (Reachable.new_future ⟨[], [], []⟩ 0 Reachable.init rfl
        (by simp) (fun s hs => Option.noConfusion hs))
      (by decide) (fun s hs => Option.noConfusion hs)
      (fun f hf => Option.noConfusion hf))
    c8_msg none none

/-! ## Lock acquisition order (C9) -/

/-- The two lock classes of the module: the registry's table lock
(`PendingChecks::internal`, utxo.rs line 162) and the per-handle interior locks
(`UtxoFuture::state`, utxo.rs line 83), the latter distinguished by handle
identifier. -/
inductive LockTag
  | registry
  | handle (fid : Nat)
deriving DecidableEq

inductive LockEvent
  | acq (l : LockTag)
  | rel (l : LockTag)
deriving DecidableEq

/-- Lock events of `UtxoFuture::resolve` in source order (utxo.rs lines 107-126):
line 108 takes the registry lock, line 109 this handle's interior lock; both the
early-return branch (line 116, selected by `raced`) and the fall-through branch
(line 126) drop the two guards in reverse declaration order before the
topology re-entry runs outside both locks. -/
def resolve_lock_events (fid : Nat) (raced : Bool) : List LockEvent :=
  if raced then
    [.acq .registry, .acq (.handle fid), .rel (.handle fid), .rel .registry]
  else
    [.acq .registry, .acq (.handle fid), .rel (.handle fid), .rel .registry]

/-- Lock events of `PendingChecks::check_channel_announcement` in source order:
lines 261-262 take and drop the registry lock around the up-front
`check_replace_previous_entry`, which at line 183 may briefly take a pending
entry's interior lock while the registry lock is held (`preLocksPending`); in the
`Async` arm (`asyncArm`), line 273 takes the registry lock, line 274 the new
future's interior lock, line 280's second `check_replace_previous_entry` may again
take a pending entry's interior lock (`asyncLocksPending`), and the guards drop
in reverse order at the end of the arm. -/
def check_lock_events (pending fut : Nat)
    (preLocksPending asyncArm asyncLocksPending : Bool) : List LockEvent :=
  [.acq .registry]
  ++ (if preLocksPending then [.acq (.handle pending), .rel (.handle pending)] else [])
  ++ [.rel .registry]
  ++ (if asyncArm then
        [.acq .registry, .acq (.handle fut)]
        ++ (if asyncLocksPending then
              [.acq (.handle pending), .rel (.handle pending)] else [])
        ++ [.rel (.handle fut), .rel .registry]
      else [])

/-- The lock-order discipline, checked over an event list while tracking whether
the registry lock is held and how many handle interior locks are held: a handle
interior lock may only be acquired while the registry lock is held, and the
registry lock may never be acquired while any handle interior lock is held — so
whenever both are held, the registry lock was acquired first. -/
def registry_lock_first : List LockEvent → Bool → Nat → Bool
  | [], _, _ => true
  | .acq .registry :: t, rHeld, held =>
      !rHeld && (held == 0) && registry_lock_first t true held
  | .acq (.handle _) :: t, rHeld, held =>
      rHeld && registry_lock_first t rHeld (held + 1)
  | .rel .registry :: t, _, held => registry_lock_first t false held
  | .rel (.handle _) :: t, rHeld, held =>
      registry_lock_first t rHeld (held - 1)

/-- **C9.** Both the registration path (`check_channel_announcement`, both its
up-front section and its deferred `Async` section) and the resolution path
(`UtxoFuture::resolve`, both branches) acquire the registry lock before any
handle's interior lock and never acquire the registry lock while holding a handle
lock, so the two paths respect one global lock order and cannot deadlock against
each other. -/
theorem lock_order_registry_first (fid pending fut : Nat)
    (raced preLocksPending asyncArm asyncLocksPending : Bool) :
    registry_lock_first (resolve_lock_events fid raced) false 0 = true ∧
    registry_lock_first
      (check_lock_events pending fut preLocksPending asyncArm asyncLocksPending)
      false 0 = true := by
  constructor
  · cases raced <;> rfl
  · cases preLocksPending <;> cases asyncArm <;> cases asyncLocksPending <;> rfl
